import Mathlib

/-!
Verification of the h-baselines core algorithms against their design
specification.  The Python sources embedded here are
`hbaselines/trpo/algorithm.py` (on-policy sampler, GAE advantage
estimator, training-loop logging) and `hbaselines/fcnet/sac.py`
(soft actor-critic policy: squashed-Gaussian actor, twin critics,
temperature, replay-buffer-gated updates).  Floating point arithmetic
is modelled over the exact reals; `NaN` results of numpy reductions
over empty arrays are modelled as `Option.none`.
-/

/-- Interpret a numpy bool as the float it becomes under arithmetic
(`1 - dones[step]` in `_add_vtarg_and_adv`). -/
def boolToReal (b : Bool) : ℝ := if b then 1 else 0

@[simp] theorem boolToReal_false : boolToReal false = 0 := rfl

@[simp] theorem boolToReal_true : boolToReal true = 1 := rfl

/-! ## Advantage estimator (`RLAlgorithm._add_vtarg_and_adv`)

`_add_vtarg_and_adv` walks the segment backwards, keeping `lastgaelam`,
the advantage it wrote one position to the right (0 at the start).
One step of that walk reads the step's reward, its done flag, and the
value-function predictions `vpred = value(observations[step])` and
`next_vpred = value(next_observations[step])`; we package those four
numbers per step. -/
structure GaeStep where
  reward : ℝ
  done : Bool
  vpred : ℝ
  nextVpred : ℝ
  deriving Inhabited

/-- The advantage array written by `_add_vtarg_and_adv`.  The source
iterates `for step in reversed(range(rew_len))` with accumulator
`lastgaelam` (initially 0), writing
`adv[step] = delta + gamma * lam * (1 - dones[step]) * lastgaelam`
where `delta = rewards[step] + gamma * notdone * next_vpred - vpred`
and `notdone = 1 if ignore_dones else 1 - dones[step]`.  Structurally,
`adv[step]` is a function of the already-computed suffix, whose head
is the current value of `lastgaelam` (`0` when the suffix is empty). -/
def gaeAdvantages (gamma lam : ℝ) (ignoreDones : Bool) : List GaeStep → List ℝ
  | [] => []
  | s :: rest =>
      let tail := gaeAdvantages gamma lam ignoreDones rest
      let lastgaelam := tail.headD 0
      let notdone : ℝ := if ignoreDones then 1 else 1 - boolToReal s.done
      let delta := s.reward + gamma * notdone * s.nextVpred - s.vpred
      (delta + gamma * lam * (1 - boolToReal s.done) * lastgaelam) :: tail

/-- `seg["tdlamret"] = seg["adv"] + seg["vpred"]` (elementwise). -/
def gaeTdLamRet (gamma lam : ℝ) (ignoreDones : Bool) (steps : List GaeStep) : List ℝ :=
  List.zipWith (· + ·) (gaeAdvantages gamma lam ignoreDones steps) (steps.map (·.vpred))

theorem gaeAdvantages_length (gamma lam : ℝ) (ig : Bool) (steps : List GaeStep) :
    (gaeAdvantages gamma lam ig steps).length = steps.length := by
  induction steps with
  | nil => rfl
  | cons s rest ih => simp [gaeAdvantages, ih]

/-- Indexed form of the backward recursion: the advantage at `i` is the
delta term plus `gamma * lam * (1 - done i)` times the advantage at
`i + 1` (taken as 0 past the end, matching `lastgaelam`'s
initialisation). -/
theorem gaeAdvantages_getD (gamma lam : ℝ) (ig : Bool) (steps : List GaeStep)
    (i : ℕ) (h : i < steps.length) :
    (gaeAdvantages gamma lam ig steps).getD i 0 =
      ((steps.getD i default).reward
          + gamma * (if ig then 1 else 1 - boolToReal (steps.getD i default).done)
              * (steps.getD i default).nextVpred
          - (steps.getD i default).vpred)
        + gamma * lam * (1 - boolToReal (steps.getD i default).done)
            * ((gaeAdvantages gamma lam ig steps).getD (i + 1) 0) := by
  induction steps generalizing i with
  | nil => simp at h
  | cons s rest ih =>
    cases i with
    | zero =>
      simp only [gaeAdvantages, List.getD_cons_zero, List.getD_cons_succ]
      have hhead : (gaeAdvantages gamma lam ig rest).headD 0
          = (gaeAdvantages gamma lam ig rest).getD 0 0 := by
        cases gaeAdvantages gamma lam ig rest <;> rfl
      rw [hhead]
    | succ j =>
      simp only [gaeAdvantages, List.getD_cons_succ]
      exact ih j (by simpa using h)

/-- Closed geometric-series form of the recursion when no step is
terminal: `adv[i] = sum_k (gamma*lam)^k * delta[i+k]` with
`delta[j] = reward[j] + gamma * nextVpred[j] - vpred[j]`. -/
theorem gaeAdvantages_geometric (gamma lam : ℝ) (steps : List GaeStep)
    (hdone : ∀ s ∈ steps, s.done = false)
    (i : ℕ) (h : i < steps.length) :
    (gaeAdvantages gamma lam false steps).getD i 0 =
      ∑ k ∈ Finset.range (steps.length - i),
        (gamma * lam) ^ k *
          ((steps.getD (i + k) default).reward
            + gamma * (steps.getD (i + k) default).nextVpred
            - (steps.getD (i + k) default).vpred) := by
  induction steps generalizing i with
  | nil => simp at h
  | cons s rest ih =>
    have hs : s.done = false := hdone s (by simp)
    have hrest : ∀ t ∈ rest, t.done = false := fun t ht => hdone t (by simp [ht])
    cases i with
    | zero =>
      simp only [gaeAdvantages, List.getD_cons_zero, hs, boolToReal_false,
        List.length_cons, Nat.sub_zero, Nat.zero_add, sub_zero, if_false]
      have hhead : (gaeAdvantages gamma lam false rest).headD 0
          = (gaeAdvantages gamma lam false rest).getD 0 0 := by
        cases gaeAdvantages gamma lam false rest <;> rfl
      rw [hhead]
      rcases rest with _ | ⟨t, rest'⟩
      · simp [gaeAdvantages]
      · have h0 := ih hrest 0 (by simp)
        simp only [List.length_cons, Nat.sub_zero, Nat.zero_add] at h0
        rw [h0]
        have hsum := Finset.sum_range_succ' (fun k =>
          (gamma * lam) ^ k *
            (((s :: t :: rest').getD k default).reward
              + gamma * ((s :: t :: rest').getD k default).nextVpred
              - ((s :: t :: rest').getD k default).vpred))
          (rest'.length + 1)
        simp only [List.getD_cons_succ, List.getD_cons_zero, pow_zero, one_mul,
          pow_succ] at hsum
        simp only [List.length_cons, Bool.false_eq_true, if_false, mul_one]
        rw [hsum, Finset.mul_sum]
        have hterm : ∀ k ∈ Finset.range (rest'.length + 1),
            gamma * lam *
              ((gamma * lam) ^ k *
                (((t :: rest').getD k default).reward
                  + gamma * ((t :: rest').getD k default).nextVpred
                  - ((t :: rest').getD k default).vpred))
            = (gamma * lam) ^ k * (gamma * lam) *
                (((t :: rest').getD k default).reward
                  + gamma * ((t :: rest').getD k default).nextVpred
                  - ((t :: rest').getD k default).vpred) := by
          intro k _
          ring
        rw [Finset.sum_congr rfl hterm]
        ring
    | succ j =>
      simp only [gaeAdvantages, List.getD_cons_succ, List.length_cons]
      have := ih hrest j (by simpa using h)
      rw [this]
      have hlen : rest.length + 1 - (j + 1) = rest.length - j := by omega
      rw [hlen]
      apply Finset.sum_congr rfl
      intro k _
      have : j + 1 + k = (j + k) + 1 := by omega
      simp [this]

/-- A 3-step trajectory with constant reward 1 and `done = False`
throughout, used to witness the GAE recursion claim. -/
def gaeSteps3 : List GaeStep :=
  [⟨1, false, 2, 3⟩, ⟨1, false, 4, 5⟩, ⟨1, false, 1, 2⟩]

/-- C2: the advantage estimator, iterating backward, satisfies at every
step `adv[i] = delta_i + gamma*lam*(1 - done_i) * adv[i+1]` with
`delta_i = reward_i + gamma*(1 - done_i)*nextVpred_i - vpred_i` (the
accumulator past the end is 0), and for a constant reward stream with
`done = False` throughout the advantages equal the closed-form
geometric series `adv[i] = sum_k (gamma*lam)^k * delta_{i+k}`. -/
theorem claim_C2_gae_recursion (gamma lam : ℝ) (steps : List GaeStep) :
    (∀ i, i < steps.length →
      (gaeAdvantages gamma lam false steps).getD i 0 =
        ((steps.getD i default).reward
            + gamma * (1 - boolToReal (steps.getD i default).done)
                * (steps.getD i default).nextVpred
            - (steps.getD i default).vpred)
          + gamma * lam * (1 - boolToReal (steps.getD i default).done)
              * ((gaeAdvantages gamma lam false steps).getD (i + 1) 0))
    ∧ (∀ r : ℝ, (∀ s ∈ steps, s.done = false) → (∀ s ∈ steps, s.reward = r) →
        ∀ i, i < steps.length →
          (gaeAdvantages gamma lam false steps).getD i 0 =
            ∑ k ∈ Finset.range (steps.length - i),
              (gamma * lam) ^ k *
                (r + gamma * (steps.getD (i + k) default).nextVpred
                  - (steps.getD (i + k) default).vpred)) := by
  constructor
  · intro i h
    simpa using gaeAdvantages_getD gamma lam false steps i h
  · intro r hdone hrew i h
    rw [gaeAdvantages_geometric gamma lam steps hdone i h]
    apply Finset.sum_congr rfl
    intro k hk
    have hik : i + k < steps.length := by
      have := Finset.mem_range.1 hk
      omega
    have : (steps.getD (i + k) default).reward = r := by
      rw [List.getD_eq_getElem steps default hik]
      exact hrew _ (List.getElem_mem hik)
    rw [this]

theorem claim_C2_gae_recursion_witness :
    gaeAdvantages (1/2) (1/3) false gaeSteps3 = [4/9, -1/3, 1]
    ∧ (gaeAdvantages (1/2) (1/3) false gaeSteps3).getD 0 0 =
        ((gaeSteps3.getD 0 default).reward
            + (1/2) * (1 - boolToReal (gaeSteps3.getD 0 default).done)
                * (gaeSteps3.getD 0 default).nextVpred
            - (gaeSteps3.getD 0 default).vpred)
          + (1/2) * (1/3) * (1 - boolToReal (gaeSteps3.getD 0 default).done)
              * ((gaeAdvantages (1/2) (1/3) false gaeSteps3).getD (0 + 1) 0)
    ∧ (gaeAdvantages (1/2) (1/3) false gaeSteps3).getD 0 0 =
        ∑ k ∈ Finset.range (gaeSteps3.length - 0),
          ((1/2 : ℝ) * (1/3)) ^ k *
            (1 + (1/2) * (gaeSteps3.getD (0 + k) default).nextVpred
              - (gaeSteps3.getD (0 + k) default).vpred) := by
  refine ⟨?_, ?_, ?_⟩
  · norm_num [gaeSteps3, gaeAdvantages]
  · exact (claim_C2_gae_recursion (1/2) (1/3) gaeSteps3).1 0 (by norm_num [gaeSteps3])
  · refine (claim_C2_gae_recursion (1/2) (1/3) gaeSteps3).2 1 ?_ ?_ 0
      (by norm_num [gaeSteps3])
    · intro s hs
      simp only [gaeSteps3, List.mem_cons, List.not_mem_nil, or_false] at hs
      rcases hs with h | h | h <;> subst h <;> rfl
    · intro s hs
      simp only [gaeSteps3, List.mem_cons, List.not_mem_nil, or_false] at hs
      rcases hs with h | h | h <;> subst h <;> rfl

/-- A 2-step trajectory whose first step is terminal, used to witness
the `ignore_dones` asymmetry. -/
def gaeStepsDone : List GaeStep := [⟨1, true, 2, 3⟩, ⟨2, false, 1, 4⟩]

/-- C6: with `ignore_dones` set, the done mask is dropped only from the
delta term (`notdone = 1` for every step) while the lambda-decay term
still multiplies by `(1 - done[step])`; with the flag unset both terms
use the done mask. -/
theorem claim_C6_ignore_dones (gamma lam : ℝ) (steps : List GaeStep)
    (i : ℕ) (h : i < steps.length) :
    ((gaeAdvantages gamma lam true steps).getD i 0 =
      ((steps.getD i default).reward + gamma * 1 * (steps.getD i default).nextVpred
          - (steps.getD i default).vpred)
        + gamma * lam * (1 - boolToReal (steps.getD i default).done)
            * ((gaeAdvantages gamma lam true steps).getD (i + 1) 0))
    ∧ ((gaeAdvantages gamma lam false steps).getD i 0 =
      ((steps.getD i default).reward
          + gamma * (1 - boolToReal (steps.getD i default).done)
              * (steps.getD i default).nextVpred
          - (steps.getD i default).vpred)
        + gamma * lam * (1 - boolToReal (steps.getD i default).done)
            * ((gaeAdvantages gamma lam false steps).getD (i + 1) 0)) := by
  constructor
  · simpa using gaeAdvantages_getD gamma lam true steps i h
  · simpa using gaeAdvantages_getD gamma lam false steps i h

theorem claim_C6_ignore_dones_witness :
    gaeAdvantages (1/2) (1/3) true gaeStepsDone = [1/2, 3]
    ∧ gaeAdvantages (1/2) (1/3) false gaeStepsDone = [-1, 3]
    ∧ ((gaeAdvantages (1/2) (1/3) true gaeStepsDone).getD 0 0 =
        ((gaeStepsDone.getD 0 default).reward
            + (1/2) * 1 * (gaeStepsDone.getD 0 default).nextVpred
            - (gaeStepsDone.getD 0 default).vpred)
          + (1/2) * (1/3) * (1 - boolToReal (gaeStepsDone.getD 0 default).done)
              * ((gaeAdvantages (1/2) (1/3) true gaeStepsDone).getD (0 + 1) 0))
    ∧ ((gaeAdvantages (1/2) (1/3) false gaeStepsDone).getD 0 0 =
        ((gaeStepsDone.getD 0 default).reward
            + (1/2) * (1 - boolToReal (gaeStepsDone.getD 0 default).done)
                * (gaeStepsDone.getD 0 default).nextVpred
            - (gaeStepsDone.getD 0 default).vpred)
          + (1/2) * (1/3) * (1 - boolToReal (gaeStepsDone.getD 0 default).done)
              * ((gaeAdvantages (1/2) (1/3) false gaeStepsDone).getD (0 + 1) 0)) := by
  refine ⟨?_, ?_, ?_, ?_⟩
  · norm_num [gaeStepsDone, gaeAdvantages]
  · norm_num [gaeStepsDone, gaeAdvantages]
  · exact (claim_C6_ignore_dones (1/2) (1/3) gaeStepsDone 0
      (by norm_num [gaeStepsDone])).1
  · exact (claim_C6_ignore_dones (1/2) (1/3) gaeStepsDone 0
      (by norm_num [gaeStepsDone])).2

/-! ## On-policy sampler (`RLAlgorithm._collect_samples`) -/

/-- Three-list pointwise map, used for elementwise numpy/TF operations
over parallel per-dimension arrays. -/
def zipWith3 {a b c d : Type} (f : a → b → c → d) : List a → List b → List c → List d
  | x :: xs, y :: ys, z :: zs => f x y z :: zipWith3 f xs ys zs
  | _, _, _ => []

/-- `np.clip(action, a_min=low, a_max=high)` elementwise:
`min(max(x, low), high)`. -/
def npClip (action low high : List ℝ) : List ℝ :=
  zipWith3 (fun x lo hi => min (max x lo) hi) action low high

/-- Result of `env.step(action)`: the tuple
`(next_obs, reward, done, info)` plus the environment's internal state
after the step (`info` carries no data used by the sampler and is
dropped). -/
structure StepResult (S O : Type) where
  obs : O
  reward : ℝ
  done : Bool
  state : S

/-- The collaborators `_collect_samples` interacts with: a gym-style
environment with hidden internal state of type `S` (`reset` returns the
initial observation together with the post-reset state, `step` advances
the state), the policy's `compute_action`, and the action-space
descriptor (`isinstance(self.env.action_space, Box)` plus its
`low`/`high` bounds). -/
structure SamplerModel (S O : Type) where
  reset : S → O × S
  step : S → List ℝ → StepResult S O
  computeAction : O → List ℝ
  isBox : Bool
  acLow : List ℝ
  acHigh : List ℝ

/-- The dict returned by `_collect_samples`. -/
structure TrajSegment (O : Type) where
  observations : List O
  next_observations : List O
  rewards : List ℝ
  dones : List Bool
  actions : List (List ℝ)
  ep_rets : List ℝ
  ep_lens : List ℕ
  total_timestep : ℕ

/-- The body of `_collect_samples`' while-loop.  Each iteration appends
exactly one transition, so `while len(observations) < n_samples` runs
exactly `n_samples - len(observations)` times; the remaining count is
the structural fuel.  Mirrors the source: the policy action is clipped
(only when the action space is a `Box`) before `env.step`, the
*unclipped* action is appended to `actions`, episode accumulators are
updated, and on `done` the completed episode's return/length are
recorded and the environment is reset. -/
def collectGo {S O : Type} (M : SamplerModel S O) :
    ℕ → S → O → List O → List O → List ℝ → List Bool → List (List ℝ) →
      ℝ → ℕ → List ℝ → List ℕ → TrajSegment O
  | 0, _, _, obsAcc, nobsAcc, rewAcc, doneAcc, actAcc, _, _, epRets, epLens =>
      { observations := obsAcc, next_observations := nobsAcc,
        rewards := rewAcc, dones := doneAcc, actions := actAcc,
        ep_rets := epRets, ep_lens := epLens,
        total_timestep := obsAcc.length }
  | m + 1, s, obs, obsAcc, nobsAcc, rewAcc, doneAcc, actAcc,
      curEpRet, curEpLen, epRets, epLens =>
      let action := M.computeAction obs
      let clippedAction :=
        if M.isBox then npClip action M.acLow M.acHigh else action
      let res := M.step s clippedAction
      if res.done then
        collectGo M m (M.reset res.state).2 (M.reset res.state).1
          (obsAcc ++ [obs]) (nobsAcc ++ [res.obs]) (rewAcc ++ [res.reward])
          (doneAcc ++ [res.done]) (actAcc ++ [action]) 0 0
          (epRets ++ [curEpRet + res.reward]) (epLens ++ [curEpLen + 1])
      else
        collectGo M m res.state res.obs
          (obsAcc ++ [obs]) (nobsAcc ++ [res.obs]) (rewAcc ++ [res.reward])
          (doneAcc ++ [res.done]) (actAcc ++ [action])
          (curEpRet + res.reward) (curEpLen + 1) epRets epLens

/-- `_collect_samples(n_samples)`: reset the environment once, then run
the loop with empty history arrays and zeroed episode accumulators. -/
def collectSamples {S O : Type} (M : SamplerModel S O) (n : ℕ) (s : S) :
    TrajSegment O :=
  collectGo M n (M.reset s).2 (M.reset s).1 [] [] [] [] [] 0 0 [] []

/-- One collected step, elaborated with the environment state before and
after it and with both the raw and the clipped action. -/
structure SampleStep (S O : Type) where
  state : S
  obs : O
  action : List ℝ
  clipped : List ℝ
  nextObs : O
  reward : ℝ
  done : Bool
  nextState : S

/-- The per-step trace of the sampling loop from a given environment
state and observation. -/
def stepTrace {S O : Type} (M : SamplerModel S O) : ℕ → S → O → List (SampleStep S O)
  | 0, _, _ => []
  | m + 1, s, obs =>
      let action := M.computeAction obs
      let clippedAction :=
        if M.isBox then npClip action M.acLow M.acHigh else action
      let res := M.step s clippedAction
      ⟨s, obs, action, clippedAction, res.obs, res.reward, res.done, res.state⟩ ::
        (if res.done then
          stepTrace M m (M.reset res.state).2 (M.reset res.state).1
        else stepTrace M m res.state res.obs)

/-- Episode lengths read off a done-flag stream: one entry per `true`,
counting the steps since the previous `true`; a trailing block with no
terminal step contributes nothing.  (Claim-side description of which
episodes are "completed".) -/
def epLensGo : ℕ → List Bool → List ℕ
  | _, [] => []
  | cur, d :: rest =>
      if d then (cur + 1) :: epLensGo 0 rest else epLensGo (cur + 1) rest

/-- Episode returns read off a (reward, done) stream: one entry per
terminal step, summing the rewards since the previous terminal step; a
truncated trailing episode contributes nothing. -/
def epRetsGo : ℝ → List (ℝ × Bool) → List ℝ
  | _, [] => []
  | cur, rd :: rest =>
      if rd.2 then (cur + rd.1) :: epRetsGo 0 rest
      else epRetsGo (cur + rd.1) rest

def episodeLens (ds : List Bool) : List ℕ := epLensGo 0 ds

def episodeRets (rds : List (ℝ × Bool)) : List ℝ := epRetsGo 0 rds

theorem stepTrace_length {S O : Type} (M : SamplerModel S O) (m : ℕ) (s : S) (obs : O) :
    (stepTrace M m s obs).length = m := by
  induction m generalizing s obs with
  | zero => rfl
  | succ k ih =>
    simp only [stepTrace]
    split <;> simp [apply_ite List.length, ih]

/-- The sampling loop equals its accumulator-free trace description:
all five history arrays are the projections of `stepTrace`, and the
episode statistics are the completed-episode folds of the trace,
continued from the incoming accumulators. -/
theorem collectGo_eq {S O : Type} (M : SamplerModel S O) (m : ℕ) (s : S) (obs : O)
    (obsAcc nobsAcc : List O) (rewAcc : List ℝ) (doneAcc : List Bool)
    (actAcc : List (List ℝ)) (curEpRet : ℝ) (curEpLen : ℕ)
    (epRets : List ℝ) (epLens : List ℕ) :
    collectGo M m s obs obsAcc nobsAcc rewAcc doneAcc actAcc
        curEpRet curEpLen epRets epLens
      = { observations := obsAcc ++ (stepTrace M m s obs).map (·.obs)
        , next_observations := nobsAcc ++ (stepTrace M m s obs).map (·.nextObs)
        , rewards := rewAcc ++ (stepTrace M m s obs).map (·.reward)
        , dones := doneAcc ++ (stepTrace M m s obs).map (·.done)
        , actions := actAcc ++ (stepTrace M m s obs).map (·.action)
        , ep_rets := epRets ++ epRetsGo curEpRet
            ((stepTrace M m s obs).map fun r => (r.reward, r.done))
        , ep_lens := epLens ++ epLensGo curEpLen
            ((stepTrace M m s obs).map (·.done))
        , total_timestep := (obsAcc ++ (stepTrace M m s obs).map (·.obs)).length } := by
  induction m generalizing s obs obsAcc nobsAcc rewAcc doneAcc actAcc
      curEpRet curEpLen epRets epLens with
  | zero => simp [collectGo, stepTrace, epRetsGo, epLensGo]
  | succ k ih =>
    by_cases hd : (M.step s (if M.isBox then
        npClip (M.computeAction obs) M.acLow M.acHigh
        else M.computeAction obs)).done
    · simp only [collectGo, stepTrace, hd, if_true]
      rw [ih]
      simp [epRetsGo, epLensGo, hd]
    · simp only [collectGo, stepTrace, hd, if_false, Bool.false_eq_true]
      rw [ih]
      simp only [Bool.not_eq_true] at hd
      simp [epRetsGo, epLensGo, hd]

/-- Every step of the trace was produced as the loop produces it: the
raw action is the policy output on the step's observation, the clipped
action is its `np.clip` image (when the space is a `Box`), and the
environment transition consumed the clipped action. -/
theorem stepTrace_mem {S O : Type} (M : SamplerModel S O) (m : ℕ) (s : S) (obs : O) :
    ∀ r ∈ stepTrace M m s obs,
      r.action = M.computeAction r.obs
      ∧ r.clipped = (if M.isBox then npClip r.action M.acLow M.acHigh else r.action)
      ∧ M.step r.state r.clipped = ⟨r.nextObs, r.reward, r.done, r.nextState⟩ := by
  induction m generalizing s obs with
  | zero => intro r hr; simp [stepTrace] at hr
  | succ k ih =>
    intro r hr
    simp only [stepTrace, List.mem_cons] at hr
    rcases hr with hr | hr
    · subst hr
      refine ⟨rfl, rfl, rfl⟩
    · split at hr <;> split at hr <;> exact ih _ _ r hr

/-- C5: `_collect_samples(n)` returns parallel arrays of exactly `n`
transitions regardless of episode boundaries (`total_timestep = n`),
and the completed-episode return/length lists contain exactly the
episodes whose terminal step fell within the `n` collected steps; an
episode truncated by the sample budget contributes no entry. -/
theorem claim_C5_sampler_step_count {S O : Type} (M : SamplerModel S O)
    (n : ℕ) (s : S) (_h : 1 ≤ n) :
    ((collectSamples M n s).observations.length = n
      ∧ (collectSamples M n s).next_observations.length = n
      ∧ (collectSamples M n s).rewards.length = n
      ∧ (collectSamples M n s).dones.length = n
      ∧ (collectSamples M n s).actions.length = n
      ∧ (collectSamples M n s).total_timestep = n)
    ∧ (collectSamples M n s).ep_lens = episodeLens (collectSamples M n s).dones
    ∧ (collectSamples M n s).ep_rets
        = episodeRets ((collectSamples M n s).rewards.zip
            (collectSamples M n s).dones) := by
  have hrw := collectGo_eq M n (M.reset s).2 (M.reset s).1
    [] [] [] [] [] 0 0 [] []
  rw [collectSamples, hrw]
  refine ⟨⟨?_, ?_, ?_, ?_, ?_, ?_⟩, ?_, ?_⟩ <;>
    simp [stepTrace_length, episodeLens, episodeRets, List.zip_map']

/-- C10: for every collected step, when the action space is a bounded
`Box`, the environment is stepped with the elementwise-clipped action
while the action recorded in the segment's `actions` array is the
policy's original unclipped output. -/
theorem claim_C10_clipped_step_raw_record {S O : Type} (M : SamplerModel S O)
    (n : ℕ) (s : S) (hbox : M.isBox = true) :
    (collectSamples M n s).actions
        = (stepTrace M n (M.reset s).2 (M.reset s).1).map (·.action)
    ∧ (collectSamples M n s).observations
        = (stepTrace M n (M.reset s).2 (M.reset s).1).map (·.obs)
    ∧ (collectSamples M n s).next_observations
        = (stepTrace M n (M.reset s).2 (M.reset s).1).map (·.nextObs)
    ∧ (collectSamples M n s).rewards
        = (stepTrace M n (M.reset s).2 (M.reset s).1).map (·.reward)
    ∧ (collectSamples M n s).dones
        = (stepTrace M n (M.reset s).2 (M.reset s).1).map (·.done)
    ∧ (∀ r ∈ stepTrace M n (M.reset s).2 (M.reset s).1,
        r.action = M.computeAction r.obs
        ∧ M.step r.state (npClip (M.computeAction r.obs) M.acLow M.acHigh)
            = ⟨r.nextObs, r.reward, r.done, r.nextState⟩) := by
  have hrw := collectGo_eq M n (M.reset s).2 (M.reset s).1
    [] [] [] [] [] 0 0 [] []
  rw [collectSamples, hrw]
  refine ⟨by simp, by simp, by simp, by simp, by simp, ?_⟩
  intro r hr
  obtain ⟨ha, hc, hs⟩ := stepTrace_mem M n (M.reset s).2 (M.reset s).1 r hr
  rw [hbox, if_pos rfl] at hc
  exact ⟨ha, by rw [← ha, ← hc]; exact hs⟩

/-- A concrete two-step-episode environment used to witness the sampler
claims: the hidden state counts steps within the episode, an episode
terminates on its second step, every reward is 1, and the policy always
proposes the out-of-bounds action `[2]` for the `Box` bounds
`[0, 1]`. -/
def witnessSampler : SamplerModel ℕ ℕ where
  reset := fun _ => (0, 0)
  step := fun s _ => ⟨s + 1, 1, s == 1, s + 1⟩
  computeAction := fun _ => [2]
  isBox := true
  acLow := [0]
  acHigh := [1]

theorem claim_C5_sampler_step_count_witness :
    ((collectSamples witnessSampler 3 0).observations.length = 3
      ∧ (collectSamples witnessSampler 3 0).next_observations.length = 3
      ∧ (collectSamples witnessSampler 3 0).rewards.length = 3
      ∧ (collectSamples witnessSampler 3 0).dones.length = 3
      ∧ (collectSamples witnessSampler 3 0).actions.length = 3
      ∧ (collectSamples witnessSampler 3 0).total_timestep = 3)
    ∧ (collectSamples witnessSampler 3 0).ep_lens
        = episodeLens (collectSamples witnessSampler 3 0).dones
    ∧ (collectSamples witnessSampler 3 0).ep_rets
        = episodeRets ((collectSamples witnessSampler 3 0).rewards.zip
            (collectSamples witnessSampler 3 0).dones) :=
  claim_C5_sampler_step_count witnessSampler 3 0 (by norm_num)

theorem claim_C10_clipped_step_raw_record_witness :
    (collectSamples witnessSampler 3 0).actions
        = (stepTrace witnessSampler 3 (witnessSampler.reset 0).2
            (witnessSampler.reset 0).1).map (·.action)
    ∧ npClip (witnessSampler.computeAction 0) witnessSampler.acLow
        witnessSampler.acHigh = [1]
    ∧ witnessSampler.computeAction 0 = [2] :=
  ⟨(claim_C10_clipped_step_raw_record witnessSampler 3 0 rfl).1,
   by norm_num [witnessSampler, npClip, zipWith3],
   rfl⟩

/-! ## Training-loop logging (`RLAlgorithm._log_training`) -/

/-- `np.mean` over a possibly empty float array.  On an empty array
numpy emits a RuntimeWarning and returns `NaN` — it does not raise;
the `NaN` is modelled as `none`. -/
noncomputable def npMean (l : List ℝ) : Option ℝ :=
  if l.isEmpty then none else some (l.sum / l.length)

/-- `np.std` (population standard deviation); `NaN` on an empty array,
modelled as `none`. -/
noncomputable def npStd (l : List ℝ) : Option ℝ :=
  if l.isEmpty then none
  else some (Real.sqrt ((l.map fun x => (x - l.sum / l.length) ^ 2).sum / l.length))

/-- Python `max(xs, default=0)`. -/
def pyMaxD0 : List ℝ → ℝ
  | [] => 0
  | x :: xs => xs.foldl max x

/-- Python `min(xs, default=0)`. -/
def pyMinD0 : List ℝ → ℝ
  | [] => 0
  | x :: xs => xs.foldl min x

/-- `collections.deque(maxlen=40).extend`: append and keep only the 40
most recent entries. -/
def dequeExtend40 (buf new : List ℝ) : List ℝ :=
  (buf ++ new).drop ((buf ++ new).length - 40)

/-- The numeric statistics row assembled by `_log_training`.  The
wall-clock fields (`duration`, `steps_per_second`) are real-time
quantities, `explained_variance` is computed by an external library
helper, and the trainer-supplied loss columns are appended verbatim;
none of them carries logic of this module and they are outside the
model.  Fields that numpy can turn into `NaN` on empty input are
`Option ℝ`. -/
structure TrainingStats where
  episode_steps : Option ℝ
  mean_return_history : Option ℝ
  mean_return : Option ℝ
  max_return : ℝ
  min_return : ℝ
  std_return : Option ℝ
  episodes_this_itr : ℕ
  episodes_total : ℕ
  total_steps : ℕ
  epoch : ℕ

/-- The pure state-update-and-stats computation of `_log_training`:
`reward_buffer` (a 40-entry rolling deque) is extended with the
segment's completed-episode returns, the running counters are
incremented, and the stats dict is assembled.  (`len_buffer` is also
extended in the source but never read when building the row —
`episode_steps` uses `np.mean(lens)` directly.)  `epLens`/`epRets` are
`seg["ep_lens"]`/`seg["ep_rets"]` and `totalTimestep` is
`seg["total_timestep"]`. -/
noncomputable def logTraining (rewardBuffer : List ℝ)
    (episodesSoFar timestepsSoFar itersSoFar : ℕ)
    (epLens : List ℕ) (epRets : List ℝ) (totalTimestep : ℕ) : TrainingStats :=
  { episode_steps := npMean (epLens.map fun n => (n : ℝ))
  , mean_return_history := npMean (dequeExtend40 rewardBuffer epRets)
  , mean_return := npMean epRets
  , max_return := pyMaxD0 epRets
  , min_return := pyMinD0 epRets
  , std_return := npStd epRets
  , episodes_this_itr := epLens.length
  , episodes_total := episodesSoFar + epLens.length
  , total_steps := timestepsSoFar + totalTimestep
  , epoch := itersSoFar + 1 }

/-- C9 counterexample: with zero completed episodes the logging row does
not record 0 for the mean-return statistic — `np.mean` of the empty
return list is `NaN` (modelled `none`), so the claim that all three of
min/max/mean default to 0 fails on the mean. -/
theorem claim_C9_counterexample :
    (logTraining [] 0 0 0 [] [] 5).mean_return ≠ some 0 := by
  simp [logTraining, npMean]

/-- C9 (amended): if a training iteration completes zero episodes, the
logging step still goes through (every statistic is defined): the
min-return and max-return statistics are recorded as 0 (Python
`min`/`max` with `default=0`), while the mean-return and std-return
statistics are `NaN` (`np.mean`/`np.std` of an empty array, modelled
`none`), not 0. -/
theorem claim_C9_empty_episode_logging (rewardBuffer : List ℝ)
    (episodesSoFar timestepsSoFar itersSoFar totalTimestep : ℕ) :
    (logTraining rewardBuffer episodesSoFar timestepsSoFar itersSoFar
        [] [] totalTimestep).max_return = 0
    ∧ (logTraining rewardBuffer episodesSoFar timestepsSoFar itersSoFar
        [] [] totalTimestep).min_return = 0
    ∧ (logTraining rewardBuffer episodesSoFar timestepsSoFar itersSoFar
        [] [] totalTimestep).mean_return = none
    ∧ (logTraining rewardBuffer episodesSoFar timestepsSoFar itersSoFar
        [] [] totalTimestep).std_return = none := by
  refine ⟨rfl, rfl, by simp [logTraining, npMean], by simp [logTraining, npStd]⟩

/-! ## SAC feed-forward policy (`hbaselines/fcnet/sac.py`)

The TensorFlow computation graph built by `FeedForwardPolicy` is
embedded value-level.  The dense-layer stacks themselves are built by
`self._layer` of `hbaselines/fcnet/base.py`, which is not under `src/`;
following the spec (§4.2: a feed-forward trunk makes the actor head
output `2*A` values split into `mean` and `log_std`, and each critic
maps `(obs, action)` to a scalar), those networks are abstracted as
functions, so every theorem below holds for *whatever* functions the
trunks compute.  Randomness (`tf.random.normal(shape=[ac_dim])`, one
noise vector broadcast across the batch) is an explicit argument. -/

def LOG_STD_MAX : ℝ := 2

def LOG_STD_MIN : ℝ := -20

/-- `tf.clip_by_value`. -/
def clipByValue (x lo hi : ℝ) : ℝ := min (max x lo) hi

/-- Parameters of the SAC policy graph: action bounds, the actor trunk
(its output split `pi_mean, pi_logstd = tf.split(output, 2)` before the
log-std clamp), the two online critic networks `qf_0`/`qf_1` (scope
"model"), the two target critic networks (scope "target"), the learnt
`log_alpha`, the discount, and the `use_huber` switch. -/
structure SACModel (O : Type) where
  acLow : List ℝ
  acHigh : List ℝ
  actorNet : O → List ℝ × List ℝ
  qf0 : O → List ℝ → ℝ
  qf1 : O → List ℝ → ℝ
  targetQf0 : O → List ℝ → ℝ
  targetQf1 : O → List ℝ → ℝ
  logAlpha : ℝ
  gamma : ℝ
  useHuber : Bool

/-- `ac_means = (ac_space.high + ac_space.low) / 2` (per dimension). -/
noncomputable def acMeans {O : Type} (M : SACModel O) : List ℝ :=
  List.zipWith (fun hi lo => (hi + lo) / 2) M.acHigh M.acLow

/-- `ac_magnitudes = (ac_space.high - ac_space.low) / 2`. -/
noncomputable def acMagnitudes {O : Type} (M : SACModel O) : List ℝ :=
  List.zipWith (fun hi lo => (hi - lo) / 2) M.acHigh M.acLow

def piMean {O : Type} (M : SACModel O) (o : O) : List ℝ := (M.actorNet o).1

/-- `pi_logstd = tf.clip_by_value(pi_logstd, LOG_STD_MIN, LOG_STD_MAX)`. -/
def piLogstd {O : Type} (M : SACModel O) (o : O) : List ℝ :=
  (M.actorNet o).2.map fun x => clipByValue x LOG_STD_MIN LOG_STD_MAX

/-- The raw stochastic sample
`policy = pi_mean + tf.exp(pi_logstd) * tf.random.normal(...)`, i.e.
the pre-squash (pre-tanh) value. -/
noncomputable def preSquash {O : Type} (M : SACModel O) (o : O) (noise : List ℝ) :
    List ℝ :=
  zipWith3 (fun m s x => m + Real.exp s * x) (piMean M o) (piLogstd M o) noise

/-- `policy = ac_magnitudes * tf.nn.tanh(policy) + ac_means`: the
squashed, rescaled actor output `actor_tf`. -/
noncomputable def actorTf {O : Type} (M : SACModel O) (o : O) (noise : List ℝ) :
    List ℝ :=
  zipWith3 (fun mag u mean => mag * Real.tanh u + mean)
    (acMagnitudes M) (preSquash M o noise) (acMeans M)

/-- The `eps=1e-6` stabiliser of `_compute_log_pis`. -/
noncomputable def sacEps : ℝ := 1e-6

/-- `_compute_log_pis(policy, pi_mean, pi_logstd, eps=1e-6)`: the action
is first normalised to `(-1, 1)` via
`policy = (policy - ac_means) / ac_magnitudes`; then
`pre_sum = -0.5 * (((policy - pi_mean) / (exp(pi_logstd) + eps))**2
+ 2*pi_logstd + log(2*pi))` is summed over dimensions and the tanh
change-of-variables term `log(1 - policy**2 + eps)` is subtracted,
also summed over dimensions.  Note that after the reassignment the
Gaussian quadratic form is evaluated at the *normalised* action. -/
noncomputable def computeLogPis {O : Type} (M : SACModel O)
    (policy pm ps : List ℝ) : ℝ :=
  let normalized :=
    zipWith3 (fun p m mag => (p - m) / mag) policy (acMeans M) (acMagnitudes M)
  let preSum := (zipWith3 (fun p m s =>
      -0.5 * (((p - m) / (Real.exp s + sacEps)) ^ 2 + 2 * s
        + Real.log (2 * Real.pi))) normalized pm ps).sum
  preSum - (normalized.map fun p => Real.log (1 - p ^ 2 + sacEps)).sum

/-- `log_pi = self._compute_log_pis(policy, pi_mean, pi_logstd)` with
`policy` the squashed `actor_tf` output. -/
noncomputable def logPi {O : Type} (M : SACModel O) (o : O) (noise : List ℝ) : ℝ :=
  computeLogPis M (actorTf M o noise) (piMean M o) (piLogstd M o)

/-- One row of a sampled batch as fed to the placeholders
(`obs0`, `actions0`, `rewards`, `obs1`, `terminals1`; the terminal flag
is stored as a float). -/
structure SACBatchRow (O : Type) where
  obs0 : O
  action : List ℝ
  reward : ℝ
  obs1 : O
  terminal : ℝ

/-- `tf.reduce_mean` over a batch. -/
noncomputable def tfReduceMean (l : List ℝ) : ℝ := l.sum / l.length

/-- `self.alpha = tf.exp(log_alpha)`. -/
noncomputable def sacAlpha {O : Type} (M : SACModel O) : ℝ := Real.exp M.logAlpha

/-- The actor loss built by `_setup_actor_optimizer`:
`tf.reduce_mean(alpha * log_pi - tf.minimum(critic_tf[0], critic_tf[1]))`.
`critic_tf[i] = make_critic(obs_ph, action_ph, scope="qf_i")` is the
critic evaluated at the *externally provided* batch action. -/
noncomputable def actorLoss {O : Type} (M : SACModel O)
    (batch : List (SACBatchRow O)) (noise : List ℝ) : ℝ :=
  tfReduceMean (batch.map fun row =>
    sacAlpha M * logPi M row.obs0 noise
      - min (M.qf0 row.obs0 row.action) (M.qf1 row.obs0 row.action))

/-- The actor loss as claim C1 states it:
`mean(alpha * log_pi - min(Q1_pi, Q2_pi))` with both twin critics
evaluated at the actor's *own* sampled action
(`critic_with_actor_tf[i] = make_critic(obs_ph, actor_tf, reuse=True)`). -/
noncomputable def claimedActorLoss {O : Type} (M : SACModel O)
    (batch : List (SACBatchRow O)) (noise : List ℝ) : ℝ :=
  tfReduceMean (batch.map fun row =>
    sacAlpha M * logPi M row.obs0 noise
      - min (M.qf0 row.obs0 (actorTf M row.obs0 noise))
          (M.qf1 row.obs0 (actorTf M row.obs0 noise)))

/-- `actor_target, next_log_pi = make_actor(obs1_ph, reuse=True)`: the
*online* actor weights applied to the next observation, with a fresh
noise draw. -/
noncomputable def actorTarget {O : Type} (M : SACModel O) (o1 : O)
    (noise' : List ℝ) : List ℝ :=
  actorTf M o1 noise'

noncomputable def nextLogPi {O : Type} (M : SACModel O) (o1 : O)
    (noise' : List ℝ) : ℝ :=
  logPi M o1 noise'

/-- `q_obs1 = tf.minimum(critic_target[0], critic_target[1]) - alpha *
next_log_pi`, with `critic_target[i] = make_critic(obs1_ph,
actor_target, scope="target/qf_i")`. -/
noncomputable def qObs1 {O : Type} (M : SACModel O) (row : SACBatchRow O)
    (noise' : List ℝ) : ℝ :=
  min (M.targetQf0 row.obs1 (actorTarget M row.obs1 noise'))
      (M.targetQf1 row.obs1 (actorTarget M row.obs1 noise'))
    - sacAlpha M * nextLogPi M row.obs1 noise'

/-- `target_q = tf.stop_gradient(rew_ph + (1 - terminals1) * gamma *
q_obs1)`.  `stop_gradient` is the identity on values; its detachment
effect is captured below by the target's independence from the online
critic parameters. -/
noncomputable def targetQ {O : Type} (M : SACModel O) (row : SACBatchRow O)
    (noise' : List ℝ) : ℝ :=
  row.reward + (1 - row.terminal) * M.gamma * qObs1 M row noise'

/-- `tf.compat.v1.losses.huber_loss(labels, predictions)` with
`delta = 1` and the default mean reduction: pointwise `0.5*e**2` for
`|e| <= 1`, else `|e| - 0.5`, with `e = predictions - labels`. -/
noncomputable def huberLoss (labels preds : List ℝ) : ℝ :=
  tfReduceMean (List.zipWith
    (fun l p => if |p - l| ≤ 1 then 0.5 * (p - l) ^ 2 else |p - l| - 0.5)
    labels preds)

/-- `tf.compat.v1.losses.mean_squared_error(labels, predictions)`. -/
noncomputable def mseLoss (labels preds : List ℝ) : ℝ :=
  tfReduceMean (List.zipWith (fun l p => (p - l) ^ 2) labels preds)

/-- `critic_loss = loss_fn(critic_tf[0], target_q) +
loss_fn(critic_tf[1], target_q)` where `loss_fn` is
`huber_loss` when `use_huber` else `mean_squared_error`, and
`critic_tf[i]` is the online critic on the current batch
`(obs0, action)`. -/
noncomputable def criticLoss {O : Type} (M : SACModel O)
    (batch : List (SACBatchRow O)) (noise' : List ℝ) : ℝ :=
  let lossFn := if M.useHuber then huberLoss else mseLoss
  lossFn (batch.map fun row => M.qf0 row.obs0 row.action)
      (batch.map fun row => targetQ M row noise')
    + lossFn (batch.map fun row => M.qf1 row.obs0 row.action)
        (batch.map fun row => targetQ M row noise')

/-- The critic regression target as claim C4 states it:
`reward + (1 - terminal) * gamma * (min(target_Q1', target_Q2') -
alpha * log_pi')` from next-state/target-network quantities. -/
noncomputable def specTargetQ {O : Type} (M : SACModel O) (row : SACBatchRow O)
    (noise' : List ℝ) : ℝ :=
  row.reward + (1 - row.terminal) * M.gamma *
    (min (M.targetQf0 row.obs1 (actorTf M row.obs1 noise'))
        (M.targetQf1 row.obs1 (actorTf M row.obs1 noise'))
      - sacAlpha M * logPi M row.obs1 noise')

/-- The critic loss as claim C4 states it: the sum over both twin
critics of the configured regression loss (Huber when `use_huber`, else
mean-squared error) between each critic's prediction on the current
batch and the target (written here with the target as the label). -/
noncomputable def specCriticLoss {O : Type} (M : SACModel O)
    (batch : List (SACBatchRow O)) (noise' : List ℝ) : ℝ :=
  (if M.useHuber then huberLoss else mseLoss)
      (batch.map fun row => specTargetQ M row noise')
      (batch.map fun row => M.qf0 row.obs0 row.action)
    + (if M.useHuber then huberLoss else mseLoss)
        (batch.map fun row => specTargetQ M row noise')
        (batch.map fun row => M.qf1 row.obs0 row.action)

theorem zipWith_symm_fn {f : ℝ → ℝ → ℝ} (hf : ∀ x y, f x y = f y x) :
    ∀ a b : List ℝ, List.zipWith f a b = List.zipWith f b a := by
  intro a
  induction a with
  | nil => intro b; cases b <;> rfl
  | cons x xs ih =>
    intro b
    cases b with
    | nil => rfl
    | cons y ys => simp [hf x y, ih ys]

theorem mseLoss_symm (a b : List ℝ) : mseLoss a b = mseLoss b a := by
  unfold mseLoss
  rw [zipWith_symm_fn (fun x y => by ring)]

theorem huberLoss_symm (a b : List ℝ) : huberLoss a b = huberLoss b a := by
  unfold huberLoss
  rw [zipWith_symm_fn]
  intro x y
  rw [abs_sub_comm]
  split
  · ring
  · rfl

/-- C4: the critic regression target equals
`reward + (1 - terminal) * gamma * (min(target_Q1', target_Q2') -
alpha * log_pi')` built from next-state/target-network quantities; the
critic loss is the sum over both twin critics of the configured
regression loss (Huber when `use_huber`, else MSE) between each
critic's prediction on the current batch and that target; and the
target does not depend on the online critic parameters (the value-level
face of `stop_gradient` detachment). -/
theorem claim_C4_critic_target_and_loss {O : Type} (M : SACModel O)
    (row : SACBatchRow O) (batch : List (SACBatchRow O)) (noise' : List ℝ)
    (f0 f1 : O → List ℝ → ℝ) :
    targetQ M row noise' = specTargetQ M row noise'
    ∧ criticLoss M batch noise' = specCriticLoss M batch noise'
    ∧ targetQ { M with qf0 := f0, qf1 := f1 } row noise' = targetQ M row noise' := by
  refine ⟨rfl, ?_, rfl⟩
  have hts : (batch.map fun r => targetQ M r noise')
      = batch.map fun r => specTargetQ M r noise' := rfl
  simp only [criticLoss, specCriticLoss]
  cases hub : M.useHuber
  · simp only [Bool.false_eq_true, if_false]
    rw [hts,
      mseLoss_symm (batch.map fun r => M.qf0 r.obs0 r.action),
      mseLoss_symm (batch.map fun r => M.qf1 r.obs0 r.action)]
  · simp only [if_true]
    rw [hts,
      huberLoss_symm (batch.map fun r => M.qf0 r.obs0 r.action),
      huberLoss_symm (batch.map fun r => M.qf1 r.obs0 r.action)]

/-- Concrete SAC instantiation refuting claim C1: a one-dimensional
action space `[0, 2]`, an actor trunk outputting mean 0 and log-std 0,
and twin critics both computing `Q(obs, a) = a[0]`.  With noise 0 the
actor's own squashed action is `[1]` while the batch action fed to the
placeholders is `[0]`, so the critic terms of the two candidate losses
differ. -/
noncomputable def sacC1 : SACModel Unit :=
  { acLow := [0], acHigh := [2]
  , actorNet := fun _ => ([0], [0])
  , qf0 := fun _ a => a.headD 0
  , qf1 := fun _ a => a.headD 0
  , targetQf0 := fun _ _ => 0
  , targetQf1 := fun _ _ => 0
  , logAlpha := 0
  , gamma := 1 / 2
  , useHuber := false }

/-- A single-row batch whose externally provided action `[0]` differs
from the actor's own squashed action. -/
noncomputable def batchC1 : List (SACBatchRow Unit) := [⟨(), [0], 0, (), 0⟩]

theorem sacC1_actorTf : actorTf sacC1 () [0] = [1] := by
  simp [actorTf, preSquash, piMean, piLogstd, acMeans, acMagnitudes, sacC1,
    zipWith3, clipByValue, LOG_STD_MIN, LOG_STD_MAX, Real.tanh_zero]

/-- C1 refuted: the actor loss built by `_setup_actor_optimizer` uses
`critic_tf` — the twin critics evaluated at the externally provided
batch actions (`action_ph`) — not `critic_with_actor_tf`; on the
concrete model above it therefore differs from the loss the claim
states. -/
theorem claim_C1_actor_loss_critic_input :
    actorLoss sacC1 batchC1 [0] ≠ claimedActorLoss sacC1 batchC1 [0] := by
  simp only [actorLoss, claimedActorLoss, batchC1, List.map_cons, List.map_nil,
    tfReduceMean, sacC1_actorTf, List.sum_cons, List.sum_nil, List.length_cons,
    List.length_nil]
  simp only [sacC1, List.headD, min_self]
  intro h
  have h' := h
  field_simp at h'
  linarith

theorem real_tanh_lt_one (x : ℝ) : Real.tanh x < 1 := by
  rw [Real.tanh_eq_sinh_div_cosh]
  exact (div_lt_one (Real.cosh_pos x)).mpr (Real.sinh_lt_cosh x)

theorem real_neg_one_lt_tanh (x : ℝ) : -1 < Real.tanh x := by
  rw [Real.tanh_eq_sinh_div_cosh]
  rw [lt_div_iff₀ (Real.cosh_pos x)]
  have h := Real.sinh_lt_cosh (-x)
  rw [Real.sinh_neg, Real.cosh_neg] at h
  linarith

/-- The log-probability formula as claim C3 states it: the base
Gaussian log-density with mean `pm` and standard deviation `exp ps`
evaluated at the *pre-squash (pre-tanh)* value, minus per action
dimension `log(1 - normalized^2 + eps)` with
`normalized = (squashed - ac_mean) / ac_magnitude` and `eps = 1e-6`,
summed over dimensions. -/
noncomputable def claimedLogPi {O : Type} (M : SACModel O)
    (preTanh squashed pm ps : List ℝ) : ℝ :=
  let normalized :=
    zipWith3 (fun p m mag => (p - m) / mag) squashed (acMeans M) (acMagnitudes M)
  (zipWith3 (fun u m s =>
      -0.5 * (((u - m) / Real.exp s) ^ 2 + 2 * s + Real.log (2 * Real.pi)))
    preTanh pm ps).sum
    - (normalized.map fun p => Real.log (1 - p ^ 2 + sacEps)).sum

/-- Concrete SAC instantiation refuting claim C3: action space
`[-1, 1]`, actor trunk outputting mean 0 and log-std 0, noise 1, so the
pre-squash value is 1 and the squashed action is `tanh 1`. -/
noncomputable def sacC3 : SACModel Unit :=
  { acLow := [-1], acHigh := [1]
  , actorNet := fun _ => ([0], [0])
  , qf0 := fun _ _ => 0
  , qf1 := fun _ _ => 0
  , targetQf0 := fun _ _ => 0
  , targetQf1 := fun _ _ => 0
  , logAlpha := 0
  , gamma := 1 / 2
  , useHuber := false }

theorem sacC3_preSquash : preSquash sacC3 () [1] = [1] := by
  simp [preSquash, piMean, piLogstd, sacC3, zipWith3, clipByValue,
    LOG_STD_MIN, LOG_STD_MAX]

theorem sacC3_actorTf : actorTf sacC3 () [1] = [Real.tanh 1] := by
  rw [actorTf, sacC3_preSquash]
  simp [acMeans, acMagnitudes, sacC3, zipWith3]

/-- C3 refuted: `_compute_log_pis` evaluates the Gaussian quadratic
form at the *normalised squashed* action (the post-tanh value, and with
`eps` added to the standard deviation), not at the pre-squash value as
the claim states; on the concrete model above the two formulas give
different numbers. -/
theorem claim_C3_log_prob_input :
    logPi sacC3 () [1]
      ≠ claimedLogPi sacC3 (preSquash sacC3 () [1]) (actorTf sacC3 () [1])
          (piMean sacC3 ()) (piLogstd sacC3 ()) := by
  have heps : (0 : ℝ) < sacEps := by norm_num [sacEps]
  have hb : (Real.tanh 1 / (1 + sacEps)) ^ 2 < 1 := by
    have h1 : Real.tanh 1 < 1 + sacEps :=
      lt_trans (real_tanh_lt_one 1) (by linarith)
    have h2 : -(1 + sacEps) < Real.tanh 1 :=
      lt_trans (by linarith [real_neg_one_lt_tanh 1]) (real_neg_one_lt_tanh 1)
    have hsq : (Real.tanh 1) ^ 2 < (1 + sacEps) ^ 2 := sq_lt_sq' h2 h1
    rw [div_pow, div_lt_one (by positivity)]
    exact hsq
  rw [logPi, sacC3_preSquash, sacC3_actorTf]
  simp only [computeLogPis, claimedLogPi, piMean, piLogstd, sacC3, acMeans,
    acMagnitudes, zipWith3, List.zipWith, List.map, List.sum_cons, List.sum_nil,
    clipByValue, LOG_STD_MIN, LOG_STD_MAX, Real.exp_zero]
  norm_num
  refine ⟨fun hx => ?_, fun hx => ?_⟩ <;> rw [hx] at hb <;> norm_num at hb

/-! ## Replay-buffer-gated update (`FeedForwardPolicy.update`) -/

/-- One stored transition `(obs0, action, reward, obs1, done)`; the
done flag is stored as a float (`float(done)` in `store_transition`). -/
structure RBTransition where
  obs0 : List ℝ
  action : List ℝ
  reward : ℝ
  obs1 : List ℝ
  terminal : ℝ
  deriving Inhabited

/-- Modelled from the spec: `hbaselines/fcnet/replay_buffer.py` is
imported by `sac.py` but is not under `src/`.  Spec §3/§4.1: a
ring-buffer of capacity `buffer_size` whose write pointer wraps,
overwriting the oldest entry once full; `can_sample()` is true iff the
stored count is at least `batch_size`; `sample()` draws `batch_size`
stored transitions uniformly at random with replacement (the random
draw is abstracted as an index source `rng`). -/
structure ReplayBuffer where
  bufferSize : ℕ
  batchSize : ℕ
  storage : List RBTransition

def ReplayBuffer.size (b : ReplayBuffer) : ℕ := b.storage.length

def ReplayBuffer.add (b : ReplayBuffer) (t : RBTransition) : ReplayBuffer :=
  if b.size < b.bufferSize then { b with storage := b.storage ++ [t] }
  else { b with storage := b.storage.tail ++ [t] }

def ReplayBuffer.canSample (b : ReplayBuffer) : Bool :=
  decide (b.batchSize ≤ b.size)

def ReplayBuffer.sample (b : ReplayBuffer) (rng : ℕ → ℕ) : List RBTransition :=
  (List.range b.batchSize).map fun i => b.storage.getD (rng i % b.size) default

/-- The mutable state `update()` can touch: the network parameters and
temperature (the `SACModel`) and the replay buffer. -/
structure SACPolicyState (O : Type) where
  model : SACModel O
  buffer : ReplayBuffer

/-- `update(**kwargs)` of `FeedForwardPolicy`: if the replay buffer
cannot sample, return the `(0, 0)` sentinel without sampling, running
any optimizer, or changing any state; otherwise draw one batch and run
`update_from_batch`.  The TensorFlow session step of
`update_from_batch` (the two critic Adam steps, the actor Adam step,
the temperature Adam step and the soft target update, executed in one
`sess.run`) updates network parameters and returns the critic and
actor losses; it is abstracted here as `gradStep` since its effect on
the parameters is irrelevant to the guard behaviour under scrutiny. -/
def sacUpdate {O : Type}
    (gradStep : SACModel O → List RBTransition → SACModel O × ℝ × ℝ)
    (rng : ℕ → ℕ) (s : SACPolicyState O) : SACPolicyState O × ℝ × ℝ :=
  if ¬ s.buffer.canSample then (s, 0, 0)
  else
    let batch := s.buffer.sample rng
    let res := gradStep s.model batch
    ({ model := res.1, buffer := s.buffer }, res.2.1, res.2.2)

/-- C7: whenever the replay buffer cannot sample a full batch,
`update()` returns the `(0, 0)` sentinel and performs no gradient step
and no target-network change: the entire policy state (network
parameters, temperature, buffer) is returned unchanged, for *every*
possible gradient-step function and random draw. -/
theorem claim_C7_update_guard {O : Type}
    (gradStep : SACModel O → List RBTransition → SACModel O × ℝ × ℝ)
    (rng : ℕ → ℕ) (s : SACPolicyState O)
    (h : s.buffer.canSample = false) :
    sacUpdate gradStep rng s = (s, 0, 0) := by
  simp [sacUpdate, h]

/-- A minimal SAC model for the C7 witness. -/
noncomputable def sacW : SACModel Unit :=
  { acLow := [0], acHigh := [1]
  , actorNet := fun _ => ([0], [0])
  , qf0 := fun _ _ => 0
  , qf1 := fun _ _ => 0
  , targetQf0 := fun _ _ => 0
  , targetQf1 := fun _ _ => 0
  , logAlpha := 0
  , gamma := 1 / 2
  , useHuber := false }

/-- A buffer holding one transition with `batch_size = 2`, so
`can_sample()` is false. -/
def bufferW : ReplayBuffer :=
  { bufferSize := 5, batchSize := 2, storage := [⟨[0], [0], 0, [0], 0⟩] }

theorem claim_C7_update_guard_witness :
    bufferW.canSample = false
    ∧ sacUpdate (fun m _ => (m, 1, 1)) (fun _ => 0) ⟨sacW, bufferW⟩
        = (⟨sacW, bufferW⟩, 0, 0) :=
  ⟨rfl, claim_C7_update_guard (fun m _ => (m, 1, 1)) (fun _ => 0)
      ⟨sacW, bufferW⟩ rfl⟩
